import Mathlib

/-!
Verification of the microrm library (a lightweight Go ORM) against its
natural-language specification.  The Go source (microrm.go, model_type.go)
is shallowly embedded: strings become `List Char`, `map[string]any`
argument bags become lookup functions `String → Option α`, reflective
struct metadata becomes explicit `Field` lists, and the external SQL
execution handle is modelled at its interface boundary (row lists,
last-insert ids, affected-row counts supplied as inputs).
-/

namespace Microrm

/-! ### Character classes

Go's `unicode.IsLetter` and `unicode.IsDigit` are modelled exactly for
code points below U+0100 (ASCII and Latin-1): the Unicode letters in that
range are the ASCII letters, U+00AA, U+00B5, U+00BA, U+00C0–U+00D6,
U+00D8–U+00F6 and U+00F8–U+00FF, and the only Nd digits in that range are
the ASCII digits.  All inputs considered in this development stay below
U+0100. -/

/-- Go `unicode.IsLetter`, exact for code points below U+0100. -/
def goIsLetter (c : Char) : Bool :=
  c.isAlpha || c.toNat == 0xAA || c.toNat == 0xB5 || c.toNat == 0xBA ||
  (0xC0 ≤ c.toNat && c.toNat ≤ 0xD6) || (0xD8 ≤ c.toNat && c.toNat ≤ 0xF6) ||
  (0xF8 ≤ c.toNat && c.toNat ≤ 0xFF)

/-- Go `unicode.IsDigit`, exact for code points below U+0100. -/
def goIsDigit (c : Char) : Bool := c.isDigit

/-- Character allowed inside a parameter name: `unicode.IsLetter(c) || unicode.IsDigit(c) || c == '_'`
(the condition of the inner collection loop of `replaceNames`, microrm.go). -/
def isNameChar (c : Char) : Bool := goIsLetter c || goIsDigit c || c == '_'

/-- Character allowed to start a parameter name: `unicode.IsLetter(c) || c == '_'`
(the guard `sql[i+1]` test in `replaceNames`, microrm.go). -/
def isNameStart (c : Char) : Bool := goIsLetter c || c == '_'

/-- The maximal run of name characters at the front of the text: the inner
`for j := i + 1; ...` loop of `replaceNames` that builds `name`. -/
def takeName : List Char → List Char
  | [] => []
  | c :: cs => if isNameChar c then c :: takeName cs else []

/-- Total UTF-8 byte length of a character list.  Go's `strings.Builder.Len`
returns the number of accumulated BYTES, and `replaceNames` collects the
parameter name into a `strings.Builder` via `WriteRune`, so `name.Len()`
is this quantity. -/
def utf8Len (cs : List Char) : Nat := (cs.map Char.utf8Size).sum

/-! ### The parameter rewriter, `DB.replaceNames` (microrm.go)

The Go loop walks `sql := []rune(rawSql)` with an index `i`.  We render it
as structural recursion over the rune list; the variable advancement of
`i` (`i++` for the second `$` of an escape, `i += name.Len()` after a
parameter name) is encoded by a skip counter: `replaceNamesAux args k cs`
is the state "drop `k` further runes, then continue the scan".  Note that
`i += name.Len()` advances by the BYTE length of the name although `i`
indexes runes, which the model reproduces via `utf8Len`. -/

/-- The scanning loop of `DB.replaceNames` (microrm.go).  On error Go
returns `("", nil, err)`; `Except.error` carries the offending parameter
name, and no partial output exists. -/
def replaceNamesAux {α : Type} (args : String → Option α) :
    Nat → List Char → Except String (List Char × List α)
  | _ + 1, [] => .ok ([], [])
  | skip + 1, _ :: rest => replaceNamesAux args skip rest
  | 0, [] => .ok ([], [])
  | 0, c :: rest =>
    if c = '$' then
      match rest with
      | [] =>
        -- trailing `$`: the guard `i+1 < len(sql)` fails, emit a literal `$`
        .ok (['$'], [])
      | c2 :: rest2 =>
        if c2 = '$' then
          -- `$$` escape: emit one literal `$`, skip the second `$`
          match replaceNamesAux args 0 rest2 with
          | .error e => .error e
          | .ok (s, out) => .ok ('$' :: s, out)
        else if isNameStart c2 then
          let nm := takeName rest
          match args (String.mk nm) with
          | none => .error (String.mk nm)
          | some v =>
            -- `i += name.Len()` (bytes) then the loop's `i++`: the scan
            -- resumes `utf8Len nm` runes into `rest`, i.e. `utf8Len nm - 1`
            -- runes into `rest2` (the name is nonempty here)
            match replaceNamesAux args (utf8Len nm - 1) rest2 with
            | .error e => .error e
            | .ok (s, out) => .ok ('?' :: s, v :: out)
        else
          -- `$` not followed by an identifier start: literal `$`, advance
          -- one; the next iteration then emits `c2` unchanged (it is
          -- neither `$` nor an identifier start), so unroll that step
          match replaceNamesAux args 0 rest2 with
          | .error e => .error e
          | .ok (s, out) => .ok ('$' :: c2 :: s, out)
    else
      match replaceNamesAux args 0 rest with
      | .error e => .error e
      | .ok (s, out) => .ok (c :: s, out)

/-- `DB.replaceNames` from microrm.go: rewritten SQL plus positional
argument list, or the name of the first unbound parameter. -/
def replaceNames {α : Type} (args : String → Option α) (rawSql : List Char) :
    Except String (List Char × List α) :=
  replaceNamesAux args 0 rawSql

/-! ### The rewrite as the specification words it

Section 4.1 of the spec describes a single left-to-right scan over the
text's CHARACTERS ("not bytes, to remain correct over multi-byte text"):
a `$name` span is replaced as a whole and the scan resumes right after
the name.  `rewriteSpec` follows those words; it differs from the source
only in resuming after `nm.length` characters where the source skips
`utf8Len nm` characters. -/

/-- Scanning loop of the spec's rewriter: identical to `replaceNamesAux`
except that a parameter span advances by its character count. -/
def rewriteSpecAux {α : Type} (args : String → Option α) :
    Nat → List Char → Except String (List Char × List α)
  | _ + 1, [] => .ok ([], [])
  | skip + 1, _ :: rest => rewriteSpecAux args skip rest
  | 0, [] => .ok ([], [])
  | 0, c :: rest =>
    if c = '$' then
      match rest with
      | [] => .ok (['$'], [])
      | c2 :: rest2 =>
        if c2 = '$' then
          match rewriteSpecAux args 0 rest2 with
          | .error e => .error e
          | .ok (s, out) => .ok ('$' :: s, out)
        else if isNameStart c2 then
          let nm := takeName rest
          match args (String.mk nm) with
          | none => .error (String.mk nm)
          | some v =>
            -- the scan resumes right after the name's characters
            match rewriteSpecAux args (nm.length - 1) rest2 with
            | .error e => .error e
            | .ok (s, out) => .ok ('?' :: s, v :: out)
        else
          -- literal `$`; the following character is emitted unchanged by
          -- the next scan step (it is neither `$` nor a name start)
          match rewriteSpecAux args 0 rest2 with
          | .error e => .error e
          | .ok (s, out) => .ok ('$' :: c2 :: s, out)
    else
      match rewriteSpecAux args 0 rest with
      | .error e => .error e
      | .ok (s, out) => .ok (c :: s, out)

/-- The rewrite exactly as the spec's words describe it (character scan). -/
def rewriteSpec {α : Type} (args : String → Option α) (rawSql : List Char) :
    Except String (List Char × List α) :=
  rewriteSpecAux args 0 rawSql

/-! ### Reflection data (model_type.go)

A Go struct field is represented by its declared name, its `db` struct
tag (empty string when absent, as `Tag.Get` returns), whether it is
exported, and the string form of its static type (what
`Type().String()` yields, e.g. `"time.Time"`). -/

/-- One struct field as `reflect.StructField` exposes it to this library. -/
structure Field where
  name : String
  dbTag : String
  exported : Bool
  typeName : String
deriving DecidableEq, Repr

/-- A Go type as far as this library inspects it: structs with their
fields, pointer and slice wrappers, and anything else (`prim`). -/
inductive GoType where
  | strukt (name : String) (fields : List Field)
  | ptr (t : GoType)
  | slice (t : GoType)
  | prim (name : String)
deriving DecidableEq, Repr

/-- The `for elemType.Kind() == reflect.Pointer || ... Slice` peeling loop
of `newModelType` (model_type.go). -/
def elemTypeOf : GoType → GoType
  | .ptr t => elemTypeOf t
  | .slice t => elemTypeOf t
  | t => t

/-- The `for t.Kind() == reflect.Pointer` loops of the determine helpers. -/
def stripPtr : GoType → GoType
  | .ptr t => stripPtr t
  | t => t

/-- `determineIsSliceOfPointers` (model_type.go). -/
def determineIsSliceOfPointers (baseType : GoType) : Bool :=
  match stripPtr baseType with
  | .slice e =>
    match e with
    | .ptr _ => true
    | _ => false
  | _ => false

/-- `determineIsStructPointer` (model_type.go). -/
def determineIsStructPointer (baseType : GoType) : Bool :=
  match baseType with
  | .ptr (.strukt _ _) => true
  | _ => false

/-- `determineIsStruct` (model_type.go). -/
def determineIsStruct (baseType : GoType) : Bool :=
  match baseType with
  | .strukt _ _ => true
  | _ => false

/-- `determineIsValidSlice` (model_type.go). -/
def determineIsValidSlice (baseType elemType : GoType) : Bool :=
  (match stripPtr baseType with
   | .slice _ => true
   | _ => false) &&
  (determineIsStruct elemType ||
   (match elemType with
    | .ptr (.strukt _ _) => true
    | _ => false))

/-- `snake_case` (microrm.go): insert `_` before each uppercase letter
except at position 0 and lowercase it.  The Boolean flag is Go's `i > 0`
test.  Upper-case detection is `Char.isUpper` (exact for the ASCII
identifiers this library sees). -/
def snakeChars : Bool → List Char → List Char
  | _, [] => []
  | isFirst, c :: cs =>
    if c.isUpper then
      (if isFirst then [c.toLower] else ['_', c.toLower]) ++ snakeChars false cs
    else
      c :: snakeChars false cs

/-- `snake_case` on strings. -/
def snake_case (name : String) : String := String.mk (snakeChars true name.data)

/-- Resolved metadata for one destination shape: `modelType`
(model_type.go).  The reflect handles `elemType`/`baseType` are carried
as the field list of the element struct (`fields`); role indexes are
`-1` when the role is absent, exactly as in the source. -/
structure ModelType where
  tableName : String
  fields : List Field
  idFieldIndex : Int
  createdAtFieldIndex : Int
  updatedAtFieldIndex : Int
  numField : Nat
  isSliceOfPointers : Bool
  isStructPointer : Bool
  isStruct : Bool
  isValidSlice : Bool
  columns : List Field
deriving DecidableEq, Repr

/-- The body of one iteration of the `findColumns` field loop
(model_type.go lines 73-99): skip unexported fields and fields tagged
`db:"-"`; unconditionally record the index of a field matching each
special role; append the field to the column list. -/
def findColumnsStep (m : ModelType) (i : Nat) (field : Field) : ModelType :=
  if !field.exported then m
  else if field.dbTag == "-" then m
  else
    let m1 := if (field.dbTag == "" && field.name == "ID") || field.dbTag == "id" then
      { m with idFieldIndex := (i : Int) } else m
    let m2 := if (field.dbTag == "" && field.name == "CreatedAt") || field.dbTag == "created_at" then
      { m1 with createdAtFieldIndex := (i : Int) } else m1
    let m3 := if (field.dbTag == "" && field.name == "UpdatedAt") || field.dbTag == "updated_at" then
      { m2 with updatedAtFieldIndex := (i : Int) } else m2
    { m3 with columns := m3.columns ++ [field] }

/-- `findColumns` (model_type.go): the `for i := 0; i < elem.NumField()` loop. -/
def findColumns (m : ModelType) : Nat → List Field → ModelType
  | _, [] => m
  | i, f :: fs => findColumns (findColumnsStep m i f) (i + 1) fs

/-- `newModelType` (model_type.go).  The table name override hook
(`TableNamer`, with the pluralizing default of later revisions) is an
external collaborator; it is supplied as `tableNamer : Option String`
(the override's return value when implemented, otherwise the snake-cased
type name is used, per the model_type.go revision the claims cite). -/
def newModelType (t : GoType) (tableNamer : Option String) : Except String ModelType :=
  match elemTypeOf t with
  | .strukt name fields =>
    let tableName :=
      match tableNamer with
      | some n => n
      | none => snake_case name
    let m0 : ModelType := {
      tableName := tableName
      fields := fields
      idFieldIndex := -1
      createdAtFieldIndex := -1
      updatedAtFieldIndex := -1
      numField := fields.length
      isSliceOfPointers := determineIsSliceOfPointers t
      isStructPointer := determineIsStructPointer t
      isStruct := determineIsStruct t
      isValidSlice := determineIsValidSlice t (elemTypeOf t)
      columns := [] }
    .ok (findColumns m0 0 fields)
  | _ => .error "destination must be a struct, or a slice of structs"

/-! ### Runtime values

Field values as this library distinguishes them: the three supported
temporal representations (`time.Time`, `*time.Time`, `sql.NullTime`),
integers (signed and unsigned collapse to `Int`), strings, booleans and
an opaque nil.  `GoTime` keeps the instant together with the location so
that the `UTC()` conversion is observable. -/

/-- A `time.Time` value: an instant plus its location. -/
structure GoTime where
  instant : Int
  loc : String
deriving DecidableEq, Repr

/-- `Time.UTC()`: same instant, location set to UTC. -/
def GoTime.utc (t : GoTime) : GoTime := { t with loc := "UTC" }

/-- A runtime field value. -/
inductive GoVal where
  | timeVal (t : GoTime)
  | timePtr (t : GoTime)
  | nullTime (t : GoTime) (valid : Bool)
  | intVal (n : Int)
  | strVal (s : String)
  | boolVal (b : Bool)
  | nilVal
deriving DecidableEq, Repr

/-- A record value: the field values of one struct in declaration order. -/
abbrev RecordV : Type := List GoVal

/-- Index of the first field with the given declared name
(`reflect.Value.FieldByName` / `Type.FieldByName`; Go structs cannot
declare the same name twice). -/
def fieldIndexByName (fields : List Field) (name : String) : Option Nat :=
  fields.findIdx? (fun f => f.name == name)

/-- `value.FieldByName(name)` for reading: the stored value of the named
field (fields looked up by this library always exist). -/
def fieldByName (fields : List Field) (value : RecordV) (name : String) : GoVal :=
  match fieldIndexByName fields name with
  | some i => value.getD i .nilVal
  | none => .nilVal

/-- `touchTimestamp` (microrm.go): if the role index is present, switch on
the static type string of the field and overwrite it with `now` in the
corresponding representation; an unsupported type is silently left
alone. -/
def touchTimestamp (fields : List Field) (value : RecordV) (fieldIndex : Int)
    (now : GoTime) : RecordV :=
  if fieldIndex < 0 then value
  else
    match fields[fieldIndex.toNat]? with
    | none => value
    | some f =>
      if f.typeName == "time.Time" then value.set fieldIndex.toNat (.timeVal now)
      else if f.typeName == "*time.Time" then value.set fieldIndex.toNat (.timePtr now)
      else if f.typeName == "sql.NullTime" then value.set fieldIndex.toNat (.nullTime now true)
      else value

/-- The column name used for a field in generated SQL: the `db` tag, or
the snake-cased field name when the tag is absent (the pattern repeated
in `Insert`, `Update`, `UpdateRecord` and `generateSelect`). -/
def columnNameOf (f : Field) : String :=
  if f.dbTag == "" then snake_case f.name else f.dbTag

/-! ### Select (microrm.go)

The external execution handle is modelled at its interface boundary: the
query returns a row list, and each row is represented by the record the
`scanStruct` call materializes from it.  Row iteration itself never
fails in the model (driver failures are collaborator concerns). -/

/-- Destination argument of `Select`: a struct (single shape) or a slice
(bulk shape), carrying its current contents. -/
inductive Dest where
  | single (r : RecordV)
  | coll (rs : List RecordV)
deriving DecidableEq, Repr

/-- Contents of a bulk destination. -/
def destColl : Dest → List RecordV
  | .coll rs => rs
  | .single _ => []

/-- Errors `Select` can surface. -/
inductive SelectErr where
  | failedModel (msg : String)
  | failedPrepare (name : String)
  | invalidShape
  | noRows
deriving DecidableEq, Repr

/-- `generateSelect` (microrm.go): the SELECT prefix and the field names
used for scanning. -/
def generateSelect (mt : ModelType) : String × List String :=
  let colStr := String.intercalate ", "
    (mt.columns.map (fun c => "`" ++ mt.tableName ++ "`.`" ++ columnNameOf c ++ "`"))
  ("SELECT " ++ colStr ++ " FROM " ++ mt.tableName, mt.columns.map (fun c => c.name))

/-- The `isSlice` test inside `Select`:
`rootType.Kind() == Slice || rootType.Kind() == Pointer && rootType.Elem().Kind() == Slice`. -/
def rootIsSlice : GoType → Bool
  | .slice _ => true
  | .ptr (.slice _) => true
  | _ => false

/-- The `for rows.Next()` loop of the bulk branch of `Select`:
`sliceTarget` starts as the destination's CURRENT contents and each
materialized record (or its reference, for slice-of-pointer shapes —
reference creation is invisible at this level) is appended to it. -/
def selectLoop (sliceTarget : List RecordV) : List RecordV → List RecordV
  | [] => sliceTarget
  | r :: rs => selectLoop (sliceTarget ++ [r]) rs

/-- `DB.Select` (microrm.go).  Stages in source order: metadata
resolution, parameter rewrite, query execution (the handle returns
`rows`), shape guard, then the bulk append loop or the single-row scan
with its explicit `sql.ErrNoRows`. -/
def select (t : GoType) (tableNamer : Option String) (dest : Dest)
    (queryFragment : List Char) (args : String → Option GoVal)
    (rows : List RecordV) : Except SelectErr Dest :=
  match newModelType t tableNamer with
  | .error e => .error (.failedModel e)
  | .ok mt =>
    match replaceNames args queryFragment with
    | .error nm => .error (.failedPrepare nm)
    | .ok _ =>
      -- query := selectFragment ++ " " ++ fragment, executed by the handle
      if !mt.isValidSlice && !mt.isStructPointer then .error .invalidShape
      else if rootIsSlice t then
        .ok (.coll (selectLoop (destColl dest) rows))
      else
        match rows with
        | [] => .error .noRows
        | r :: _ => .ok (.single r)

/-! ### Insert (microrm.go) -/

/-- Result of a successful `Insert`: the record as left in memory, the
generated statement text, and the values bound to its placeholders
(`insertColumnData`). -/
structure InsertDone where
  record : RecordV
  sql : String
  sentValues : List GoVal
deriving DecidableEq, Repr

/-- `reflect.Kind` grouping used when writing back the generated id:
the signed-integer kinds. -/
def goKindIsInt (tn : String) : Bool :=
  tn == "int" || tn == "int8" || tn == "int16" || tn == "int32" || tn == "int64"

/-- The unsigned-integer kinds. -/
def goKindIsUint (tn : String) : Bool :=
  tn == "uint" || tn == "uint8" || tn == "uint16" || tn == "uint32" || tn == "uint64"

/-- The column extraction loop of `Insert`: one value per resolved
column, read by field name from the (already timestamp-touched) record. -/
def insertColumnData (mt : ModelType) (v : RecordV) : List GoVal :=
  mt.columns.map (fun col => fieldByName mt.fields v col.name)

/-- The statement text `Insert` builds. -/
def insertSqlText (mt : ModelType) : String :=
  "INSERT INTO " ++ mt.tableName ++ " (" ++
    String.intercalate ", " (mt.columns.map (fun col => "`" ++ columnNameOf col ++ "`")) ++
    ") VALUES (" ++ String.intercalate ", " (mt.columns.map (fun _ => "?")) ++ ")"

/-- The generated-id write-back at the end of `Insert`: when an identity
field exists, assign `LastInsertId` if the field has a signed integer
kind, or an unsigned kind and the id is non-negative; any other kind is
left untouched. -/
def insertIdWriteBack (mt : ModelType) (v : RecordV) (lastInsertId : Int) : RecordV :=
  if mt.idFieldIndex < 0 then v
  else
    match mt.fields[mt.idFieldIndex.toNat]? with
    | none => v
    | some f =>
      if goKindIsInt f.typeName then v.set mt.idFieldIndex.toNat (.intVal lastInsertId)
      else if goKindIsUint f.typeName then
        if 0 ≤ lastInsertId then v.set mt.idFieldIndex.toNat (.intVal lastInsertId) else v
      else v

/-- `DB.Insert` (microrm.go).  `now0` is what the clock's `Now()`
returns; `lastInsertId` is what the execution result reports.  Steps in
source order: shape guard, `UTC()` conversion, the two `touchTimestamp`
calls, column extraction in resolution order, statement execution, and
the generated-id write-back. -/
def insert (mt : ModelType) (value : RecordV) (now0 : GoTime)
    (lastInsertId : Int) : Except String InsertDone :=
  if !mt.isStructPointer then
    .error "destination must be a pointer to a struct"
  else
    let now := now0.utc
    let v1 := touchTimestamp mt.fields value mt.createdAtFieldIndex now
    let v2 := touchTimestamp mt.fields v1 mt.updatedAtFieldIndex now
    .ok { record := insertIdWriteBack mt v2 lastInsertId
          sql := insertSqlText mt
          sentValues := insertColumnData mt v2 }

/-! ### Update and UpdateRecord (microrm.go) -/

/-- The `Updates` map (field name to new value).  Go map iteration order
is unspecified; the model keeps the entries as a list and theorems
quantify over the order. -/
abbrev UpdatesM : Type := List (String × GoVal)

/-- `updates[k]` lookup. -/
def lookupUpd (us : UpdatesM) (k : String) : Option GoVal :=
  (us.find? (fun p => p.1 == k)).map (fun p => p.2)

/-- `updates[k] = v` assignment on a cloned map. -/
def setUpd (us : UpdatesM) (k : String) (v : GoVal) : UpdatesM :=
  if (us.find? (fun p => p.1 == k)).isSome then
    us.map (fun p => if p.1 == k then (k, v) else p)
  else
    us ++ [(k, v)]

/-- The updated-at injection shared verbatim by `Update` and
`UpdateRecord` (microrm.go): when the update-timestamp role is present,
clone the map and store `now` under the field's name in the
representation matching the field's static type; an unsupported temporal
type is a hard failure. -/
def injectUpdatedAt (mt : ModelType) (us : UpdatesM) (now : GoTime) :
    Except String UpdatesM :=
  if mt.updatedAtFieldIndex < 0 then .ok us
  else
    match mt.fields[mt.updatedAtFieldIndex.toNat]? with
    | none => .ok us
    | some f =>
      if f.typeName == "time.Time" then .ok (setUpd us f.name (.timeVal now))
      else if f.typeName == "*time.Time" then .ok (setUpd us f.name (.timePtr now))
      else if f.typeName == "sql.NullTime" then .ok (setUpd us f.name (.nullTime now true))
      else .error ("unsupported UpdatedAt field type: " ++ f.typeName)

/-- Result of a successful bulk `Update`: statement text, the positional
argument list passed to `ExecContext` (`finalArgs`), and the
affected-row count reported by the handle. -/
structure UpdateDone where
  sql : String
  args : List GoVal
  rowsAffected : Int
deriving DecidableEq, Repr

/-- `DB.Update` (microrm.go): shape guard, non-empty guard, updated-at
injection, SET clause built by one pass over the resolved columns
(update-map keys naming no column are silently skipped), fragment
rewrite, then `finalArgs := updateValues ++ whereArgs`. -/
def update (mt : ModelType) (queryFragment : List Char)
    (args : String → Option GoVal) (updates : UpdatesM) (now0 : GoTime)
    (rowsAffected : Int) : Except String UpdateDone :=
  if !mt.isStructPointer && !mt.isStruct then
    .error "destination must be a struct or pointer to a struct"
  else if updates.length == 0 then
    .error "no updates provided"
  else
    let now := now0.utc
    match injectUpdatedAt mt updates now with
    | .error e => .error e
    | .ok us =>
      let setPairs := mt.columns.filterMap (fun col =>
        match lookupUpd us col.name with
        | some v => some (columnNameOf col, v)
        | none => none)
      let setClauses := String.intercalate ", "
        (setPairs.map (fun p => "`" ++ p.1 ++ "` = ?"))
      let updateValues := setPairs.map (fun p => p.2)
      match replaceNames args queryFragment with
      | .error e => .error ("missing argument for named parameter: " ++ e)
      | .ok (fragment, whereArgs) =>
        .ok { sql := "UPDATE " ++ mt.tableName ++ " SET " ++ setClauses ++ " " ++
                String.mk fragment
              args := updateValues ++ whereArgs
              rowsAffected := rowsAffected }

/-- A statement handed to `ExecContext`: text plus positional values. -/
abbrev Stmt : Type := String × List GoVal

/-- The `for fieldName, val := range updates` clause-building loop of
`UpdateRecord`: fails on the first key (in iteration order) that does
not name an exported field; otherwise yields (column name, value) pairs
in iteration order. -/
def updateRecordSetLoop (fields : List Field) :
    UpdatesM → Except String (List (String × GoVal))
  | [] => .ok []
  | (k, v) :: rest =>
    match fields.find? (fun f => f.name == k) with
    | none => .error ("cannot update missing or unexported field: " ++ k)
    | some f =>
      if !f.exported then .error ("cannot update missing or unexported field: " ++ k)
      else
        match updateRecordSetLoop fields rest with
        | .error e => .error e
        | .ok tail => .ok ((columnNameOf f, v) :: tail)

/-- The post-execution write-back loop of `UpdateRecord`: set every key
of the (injected) update map onto the record, skipping names that do not
resolve to a settable field. -/
def writeBack (fields : List Field) (value : RecordV) : UpdatesM → RecordV
  | [] => value
  | (k, v) :: rest =>
    let value1 :=
      match fieldIndexByName fields k with
      | some i => value.set i v
      | none => value
    writeBack fields value1 rest

/-- `DB.UpdateRecord` (microrm.go).  `dbLog` is the list of statements
the execution handle has run; every error path returns it unchanged,
modelling that the error is raised before `ExecContext`.  On success the
statement is appended and the write-back record is returned. -/
def updateRecord (mt : ModelType) (value : RecordV) (updates : UpdatesM)
    (now0 : GoTime) (dbLog : List Stmt) : List Stmt × Except String RecordV :=
  if !mt.isStructPointer then
    (dbLog, .error "destination must be a pointer to a struct")
  else if updates.length == 0 then
    (dbLog, .error "no updates provided")
  else if mt.idFieldIndex < 0 then
    (dbLog, .error "struct does not have an ID field")
  else
    let idVal := value.getD mt.idFieldIndex.toNat .nilVal
    let now := now0.utc
    match injectUpdatedAt mt updates now with
    | .error e => (dbLog, .error e)
    | .ok us =>
      match updateRecordSetLoop mt.fields us with
      | .error e => (dbLog, .error e)
      | .ok pairs =>
        let updateSql := "UPDATE " ++ mt.tableName ++ " SET " ++
          String.intercalate ", " (pairs.map (fun p => "`" ++ p.1 ++ "` = ?")) ++
          " WHERE id = ?"
        let updateValues := pairs.map (fun p => p.2) ++ [idVal]
        (dbLog ++ [(updateSql, updateValues)], .ok (writeBack mt.fields value us))

/-! ### Delete, DeleteRecord, DeleteRecords, Transaction (microrm.go)

The database table behind `DELETE FROM t WHERE id = ?` is modelled at
the interface boundary by the list of id values of its rows: executing
the statement removes every row whose id equals the bound value and
reports the number removed. -/

/-- Effect of `DELETE FROM t WHERE id = ?` on the table's row ids. -/
def execDeleteById (table : List GoVal) (v : GoVal) : List GoVal × Int :=
  let remaining := table.filter (fun x => x != v)
  (remaining, ((table.length : Int) - (remaining.length : Int)))

/-- `DB.DeleteRecord` (microrm.go): metadata resolution, pointer-shape
guard, identity-field guard, then the delete statement. -/
def deleteRecord (t : GoType) (tableNamer : Option String) (value : RecordV)
    (table : List GoVal) : Except String (List GoVal × Int) :=
  match newModelType t tableNamer with
  | .error e => .error e
  | .ok mt =>
    if !mt.isStructPointer then
      .error "destination must be a pointer to a struct"
    else if mt.idFieldIndex < 0 then
      .error "struct does not have an ID field"
    else
      .ok (execDeleteById table (value.getD mt.idFieldIndex.toNat .nilVal))

/-- The per-element loop of `DeleteRecords`: one `DeleteRecord` per
element in collection order, accumulating the affected count.  Both the
slice-of-pointers and the slice-of-values branch hand `DeleteRecord` a
pointer to the element (values are copied to a fresh addressable
pointer), so the element type is the same in either branch. -/
def deleteRecordsLoop (elemPtr : GoType) (tableNamer : Option String) :
    List RecordV → List GoVal → Int → Except String (List GoVal × Int)
  | [], table, n => .ok (table, n)
  | rec :: recs, table, n =>
    match deleteRecord elemPtr tableNamer rec table with
    | .error e => .error e
    | .ok (table1, nn) => deleteRecordsLoop elemPtr tableNamer recs table1 (n + nn)

/-- `DB.Transaction` (microrm.go): refuse nesting, run the body, commit
its state on success and roll every change back on error (the caller
observes the initial state again). -/
def transaction (table : List GoVal) (inTx : Bool)
    (body : List GoVal → Except String (List GoVal × Int)) :
    List GoVal × Except String Int :=
  if inTx then (table, .error "nested transactions are not supported")
  else
    match body table with
    | .error e => (table, .error e)
    | .ok (table1, n) => (table1, .ok n)

/-- `DB.DeleteRecords` (microrm.go): metadata resolution on the slice
argument, slice-shape guard, then the per-element loop inside a single
transaction.  Returns the table state seen by the caller afterwards
together with the outcome. -/
def deleteRecords (t : GoType) (tableNamer : Option String)
    (recs : List RecordV) (table : List GoVal) (inTx : Bool) :
    List GoVal × Except String Int :=
  match newModelType t tableNamer with
  | .error e => (table, .error e)
  | .ok mt =>
    if !mt.isValidSlice then
      (table, .error "destination must be a slice")
    else
      transaction table inTx
        (fun tb => deleteRecordsLoop (.ptr (elemTypeOf t)) tableNamer recs tb 0)

/-! ### Specification-side helper notions used in theorem statements -/

/-- The instant carried by a supported temporal value. -/
def temporalInstant : GoVal → Option Int
  | .timeVal t => some t.instant
  | .timePtr t => some t.instant
  | .nullTime t true => some t.instant
  | _ => none

/-- The three temporal representations the library supports. -/
def supportedTemporal (tn : String) : Bool :=
  tn == "time.Time" || tn == "*time.Time" || tn == "sql.NullTime"

/-- The value a supported temporal field receives when set to `now`. -/
def mkTemporalVal (tn : String) (now : GoTime) : GoVal :=
  if tn == "time.Time" then .timeVal now
  else if tn == "*time.Time" then .timePtr now
  else .nullTime now true

/-- A field `findColumns` considers at all: exported and not tagged `db:"-"`. -/
def roleEligible (f : Field) : Bool := f.exported && !(f.dbTag == "-")

/-- The identity-role condition of `findColumns` (exact name `"ID"`). -/
def isIdMatch (f : Field) : Bool :=
  (f.dbTag == "" && f.name == "ID") || f.dbTag == "id"

/-- The creation-timestamp condition of `findColumns`. -/
def isCreatedAtMatch (f : Field) : Bool :=
  (f.dbTag == "" && f.name == "CreatedAt") || f.dbTag == "created_at"

/-- The update-timestamp condition of `findColumns`. -/
def isUpdatedAtMatch (f : Field) : Bool :=
  (f.dbTag == "" && f.name == "UpdatedAt") || f.dbTag == "updated_at"

/-- Position of the LAST eligible field satisfying `p`, counting from
offset `i` (declaration indexes count every field, exported or not). -/
def lastMatchFrom (p : Field → Bool) : Nat → List Field → Option Nat
  | _, [] => none
  | i, f :: fs =>
    match lastMatchFrom p (i + 1) fs with
    | some j => some j
    | none => if roleEligible f && p f then some i else none

/-- Role index as an `Int`, `-1` when the role is absent. -/
def roleIndexOf (p : Field → Bool) (fields : List Field) : Int :=
  match lastMatchFrom p 0 fields with
  | some j => (j : Int)
  | none => -1

/-- ASCII lower-casing of a string, character by character. -/
def lowerString (s : String) : String := String.mk (s.data.map Char.toLower)

/-- The identity-role resolution as claim C4 words it: the FIRST field,
in declaration order, whose override tag is `"id"` or, absent any
override tag, whose declared name CASE-INSENSITIVELY matches `"id"`. -/
def claimIdIndexFirstCI (fields : List Field) : Int :=
  match fields.findIdx? (fun f =>
      roleEligible f && (f.dbTag == "id" || (f.dbTag == "" && lowerString f.name == "id"))) with
  | some i => (i : Int)
  | none => -1

/-- Whether `k` is the declared name of an exported field of the type. -/
def namesExportedField (fields : List Field) (k : String) : Bool :=
  fields.any (fun f => f.name == k && f.exported)

/-! ## Helper lemmas -/

theorem selectLoop_eq_append : ∀ (rows acc : List RecordV), selectLoop acc rows = acc ++ rows := by
  intro rows
  induction rows with
  | nil => intro acc; simp [selectLoop]
  | cons r rs ih =>
    intro acc
    simp [selectLoop, ih, List.append_assoc]

theorem findColumnsStep_shape (m : ModelType) (i : Nat) (f : Field) :
    (findColumnsStep m i f).tableName = m.tableName ∧
    (findColumnsStep m i f).fields = m.fields ∧
    (findColumnsStep m i f).numField = m.numField ∧
    (findColumnsStep m i f).isSliceOfPointers = m.isSliceOfPointers ∧
    (findColumnsStep m i f).isStructPointer = m.isStructPointer ∧
    (findColumnsStep m i f).isStruct = m.isStruct ∧
    (findColumnsStep m i f).isValidSlice = m.isValidSlice := by
  unfold findColumnsStep
  repeat' split
  all_goals simp

theorem findColumns_shape (fs : List Field) : ∀ (m : ModelType) (i : Nat),
    (findColumns m i fs).tableName = m.tableName ∧
    (findColumns m i fs).fields = m.fields ∧
    (findColumns m i fs).numField = m.numField ∧
    (findColumns m i fs).isSliceOfPointers = m.isSliceOfPointers ∧
    (findColumns m i fs).isStructPointer = m.isStructPointer ∧
    (findColumns m i fs).isStruct = m.isStruct ∧
    (findColumns m i fs).isValidSlice = m.isValidSlice := by
  induction fs with
  | nil => intro m i; exact ⟨rfl, rfl, rfl, rfl, rfl, rfl, rfl⟩
  | cons f fs ih =>
    intro m i
    have h1 := ih (findColumnsStep m i f) (i + 1)
    have h2 := findColumnsStep_shape m i f
    simp only [findColumns]
    exact ⟨h1.1.trans h2.1, h1.2.1.trans h2.2.1, h1.2.2.1.trans h2.2.2.1,
      h1.2.2.2.1.trans h2.2.2.2.1, h1.2.2.2.2.1.trans h2.2.2.2.2.1,
      h1.2.2.2.2.2.1.trans h2.2.2.2.2.2.1, h1.2.2.2.2.2.2.trans h2.2.2.2.2.2.2⟩

theorem findColumnsStep_idFieldIndex (m : ModelType) (i : Nat) (f : Field) :
    (findColumnsStep m i f).idFieldIndex =
      if roleEligible f && isIdMatch f then (i : Int) else m.idFieldIndex := by
  unfold findColumnsStep roleEligible isIdMatch
  repeat' split
  all_goals simp_all

theorem findColumnsStep_createdAtFieldIndex (m : ModelType) (i : Nat) (f : Field) :
    (findColumnsStep m i f).createdAtFieldIndex =
      if roleEligible f && isCreatedAtMatch f then (i : Int) else m.createdAtFieldIndex := by
  unfold findColumnsStep roleEligible isCreatedAtMatch
  repeat' split
  all_goals simp_all

theorem findColumnsStep_updatedAtFieldIndex (m : ModelType) (i : Nat) (f : Field) :
    (findColumnsStep m i f).updatedAtFieldIndex =
      if roleEligible f && isUpdatedAtMatch f then (i : Int) else m.updatedAtFieldIndex := by
  unfold findColumnsStep roleEligible isUpdatedAtMatch
  repeat' split
  all_goals simp_all

theorem findColumns_idFieldIndex (fs : List Field) : ∀ (m : ModelType) (i : Nat),
    (findColumns m i fs).idFieldIndex =
      (match lastMatchFrom isIdMatch i fs with
       | some j => (j : Int)
       | none => m.idFieldIndex) := by
  induction fs with
  | nil => intro m i; rfl
  | cons f fs ih =>
    intro m i
    simp only [findColumns, lastMatchFrom]
    rw [ih]
    cases h : lastMatchFrom isIdMatch (i + 1) fs with
    | some j => rfl
    | none =>
      simp only [findColumnsStep_idFieldIndex]
      by_cases hc : (roleEligible f && isIdMatch f) = true
      · simp [hc]
      · simp [hc]

theorem findColumns_createdAtFieldIndex (fs : List Field) : ∀ (m : ModelType) (i : Nat),
    (findColumns m i fs).createdAtFieldIndex =
      (match lastMatchFrom isCreatedAtMatch i fs with
       | some j => (j : Int)
       | none => m.createdAtFieldIndex) := by
  induction fs with
  | nil => intro m i; rfl
  | cons f fs ih =>
    intro m i
    simp only [findColumns, lastMatchFrom]
    rw [ih]
    cases h : lastMatchFrom isCreatedAtMatch (i + 1) fs with
    | some j => rfl
    | none =>
      simp only [findColumnsStep_createdAtFieldIndex]
      by_cases hc : (roleEligible f && isCreatedAtMatch f) = true
      · simp [hc]
      · simp [hc]

theorem findColumns_updatedAtFieldIndex (fs : List Field) : ∀ (m : ModelType) (i : Nat),
    (findColumns m i fs).updatedAtFieldIndex =
      (match lastMatchFrom isUpdatedAtMatch i fs with
       | some j => (j : Int)
       | none => m.updatedAtFieldIndex) := by
  induction fs with
  | nil => intro m i; rfl
  | cons f fs ih =>
    intro m i
    simp only [findColumns, lastMatchFrom]
    rw [ih]
    cases h : lastMatchFrom isUpdatedAtMatch (i + 1) fs with
    | some j => rfl
    | none =>
      simp only [findColumnsStep_updatedAtFieldIndex]
      by_cases hc : (roleEligible f && isUpdatedAtMatch f) = true
      · simp [hc]
      · simp [hc]

/-! ## Claim theorems -/

/-- Claim C1 (code divergence exhibit).  The claim's two concrete ASCII
scenarios do hold of `replaceNames`: `"WHERE id = $id"` with `{id: 123}`
yields `"WHERE id = ?"` with `[123]`, and `"user_id = $x OR admin_id = $x"`
with `{x: 5}` yields two placeholders with `[5, 5]`.  But the universally
quantified claim fails: for the text `"$é!"` with `{é: 123}` the code
advances the scan by the BYTE length of the multi-byte name `é` while
indexing runes, so the `'!'` after the token is swallowed — the code
yields `"?"` where the claimed replacement semantics (also computed here
by `rewriteSpec`) yields `"?!"`. -/
theorem replaceNames_token_replacement_and_multibyte_slip :
    replaceNames (fun s => if s = "id" then some (GoVal.intVal 123) else none)
        "WHERE id = $id".data = .ok ("WHERE id = ?".data, [.intVal 123]) ∧
    replaceNames (fun s => if s = "x" then some (GoVal.intVal 5) else none)
        "user_id = $x OR admin_id = $x".data =
      .ok ("user_id = ? OR admin_id = ?".data, [.intVal 5, .intVal 5]) ∧
    replaceNames (fun s => if s = "é" then some (GoVal.intVal 123) else none)
        "$é!".data = .ok ("?".data, [.intVal 123]) ∧
    rewriteSpec (fun s => if s = "é" then some (GoVal.intVal 123) else none)
        "$é!".data = .ok ("?!".data, [.intVal 123]) ∧
    ("?".data : List Char) ≠ "?!".data :=
  ⟨rfl, rfl, rfl, rfl, by decide⟩

/-- Claim C2 (code divergence exhibit).  On ASCII texts the first missing
parameter in scan order is reported (`"id = $missing1 AND name = $missing2"`
with an empty bag fails citing `missing1`, whatever the bag's iteration
order — the bag is only consulted by lookup).  But the universally
quantified claim fails: in `"$é$x"` with `{é: 1}` the parameter `x` is
unbound, yet the byte-length scan slip after the multi-byte name `é`
swallows the `$` of `$x`, so the rewrite SUCCEEDS with `"?x"` and `[1]`
instead of failing; the spec's character scan (`rewriteSpec`) fails
citing `x`. -/
theorem replaceNames_missing_parameter_behavior :
    replaceNames (fun _ => (none : Option GoVal))
        "id = $missing1 AND name = $missing2".data = .error "missing1" ∧
    replaceNames (fun s => if s = "é" then some (GoVal.intVal 1) else none)
        "$é$x".data = .ok ("?x".data, [.intVal 1]) ∧
    rewriteSpec (fun s => if s = "é" then some (GoVal.intVal 1) else none)
        "$é$x".data = .error "x" :=
  ⟨rfl, rfl, rfl⟩

theorem replaceNamesAux_dollar_runs {α : Type} (args : String → Option α) :
    ∀ n, replaceNamesAux args 0 (List.replicate n '$') =
      .ok (List.replicate ((n + 1) / 2) '$', ([] : List α)) := by
  intro n
  induction n using Nat.strong_induction_on with
  | _ n ih =>
    match n with
    | 0 => rfl
    | 1 => rfl
    | (k + 2) =>
      have hk := ih k (by omega)
      have h2 : List.replicate (k + 2) '$' = '$' :: '$' :: List.replicate k '$' := by
        simp [List.replicate_succ]
      have h3 : (k + 2 + 1) / 2 = (k + 1) / 2 + 1 := by omega
      rw [h2, h3, List.replicate_succ]
      simp [replaceNamesAux, hk]

/-- Claim C9: rewriting a text of N consecutive `$` characters (any
argument bag) succeeds, pairs consume greedily left-to-right, and the
output is `floor(N/2)` literal `$` plus one trailing `$` when N is odd;
no positional arguments are produced. -/
theorem replaceNames_consecutive_dollars {α : Type} (args : String → Option α)
    (n : Nat) (_hn : 1 ≤ n) :
    replaceNames args (List.replicate n '$') =
      .ok (List.replicate (n / 2) '$' ++ (if n % 2 = 1 then ['$'] else []), ([] : List α)) := by
  rw [replaceNames, replaceNamesAux_dollar_runs args n]
  by_cases hp : n % 2 = 1
  · have h1 : (n + 1) / 2 = n / 2 + 1 := by omega
    rw [hp, if_pos rfl, h1, List.replicate_succ']
  · have h1 : (n + 1) / 2 = n / 2 := by omega
    rw [if_neg hp, h1, List.append_nil]

/-- Witness for C9 at N = 3: `"$$$"` rewrites to `"$$"`. -/
theorem replaceNames_consecutive_dollars_witness :
    replaceNames (fun _ => (none : Option GoVal)) (List.replicate 3 '$') =
      .ok (List.replicate (3 / 2) '$' ++ (if 3 % 2 = 1 then ['$'] else []), ([] : List GoVal)) :=
  replaceNames_consecutive_dollars (fun _ => none) 3 (by decide)

theorem newModelType_shapes (t : GoType) (sn : String) (fields : List Field)
    (tn : Option String) (he : elemTypeOf t = .strukt sn fields) :
    ∃ mt, newModelType t tn = .ok mt ∧ mt.fields = fields ∧
      mt.isStructPointer = determineIsStructPointer t ∧
      mt.isStruct = determineIsStruct t ∧
      mt.isValidSlice = determineIsValidSlice t (elemTypeOf t) ∧
      mt.isSliceOfPointers = determineIsSliceOfPointers t ∧
      mt.idFieldIndex = roleIndexOf isIdMatch fields ∧
      mt.createdAtFieldIndex = roleIndexOf isCreatedAtMatch fields ∧
      mt.updatedAtFieldIndex = roleIndexOf isUpdatedAtMatch fields := by
  unfold newModelType
  rw [he]
  refine ⟨_, rfl, ?_, ?_, ?_, ?_, ?_, ?_, ?_, ?_⟩
  · exact ((findColumns_shape fields _ 0).2.1).trans rfl
  · exact ((findColumns_shape fields _ 0).2.2.2.2.1).trans rfl
  · exact ((findColumns_shape fields _ 0).2.2.2.2.2.1).trans rfl
  · exact ((findColumns_shape fields _ 0).2.2.2.2.2.2).trans rfl
  · exact ((findColumns_shape fields _ 0).2.2.2.1).trans rfl
  · rw [findColumns_idFieldIndex, roleIndexOf]
  · rw [findColumns_createdAtFieldIndex, roleIndexOf]
  · rw [findColumns_updatedAtFieldIndex, roleIndexOf]

/-- Counterexample to claim C4: role resolution is neither case-insensitive
nor first-match.  A single exported untagged field named `Id` is NOT
resolved as the identity column (the source compares the name to the
exact string `"ID"`), although the claim's first-match case-insensitive
rule (`claimIdIndexFirstCI`) selects it; and when the first field (`ID`,
untagged) and the second field (`Key`, tagged `db:"id"`) both qualify,
the source resolves index 1 — the LAST match — where the claim predicts
index 0. -/
theorem findColumns_first_and_case_insensitive_false :
    (newModelType (.strukt "T" [⟨"Id", "", true, "int"⟩]) none).map
        (fun mt => mt.idFieldIndex) = .ok (-1) ∧
    claimIdIndexFirstCI [⟨"Id", "", true, "int"⟩] = 0 ∧
    ((-1 : Int) = 0 → False) ∧
    (newModelType (.strukt "T" [⟨"ID", "", true, "int"⟩, ⟨"Key", "id", true, "string"⟩]) none).map
        (fun mt => mt.idFieldIndex) = .ok 1 ∧
    claimIdIndexFirstCI [⟨"ID", "", true, "int"⟩, ⟨"Key", "id", true, "string"⟩] = 0 ∧
    ((1 : Int) = 0 → False) :=
  ⟨rfl, rfl, by decide, rfl, rfl, by decide⟩

/-- Claim C4 (amended): a field is resolved as the identity column if its
override tag is `"id"` or, absent any override tag, its declared name is
EXACTLY `"ID"` (analogously `"created_at"` / `"updated_at"` tags or the
exact names `"CreatedAt"` / `"UpdatedAt"`), considering only exported
fields not tagged `db:"-"`; at most one field holds each role, and when
several fields qualify for the same role the LAST matching field in
declaration order wins. -/
theorem newModelType_role_indexes_last_exact (sn : String) (fields : List Field)
    (tableNamer : Option String) :
    (newModelType (.strukt sn fields) tableNamer).map
        (fun mt => (mt.idFieldIndex, mt.createdAtFieldIndex, mt.updatedAtFieldIndex)) =
      .ok (roleIndexOf isIdMatch fields, roleIndexOf isCreatedAtMatch fields,
           roleIndexOf isUpdatedAtMatch fields) := by
  obtain ⟨mt, hmt, _, _, _, _, _, hid, hca, hua⟩ :=
    newModelType_shapes (.strukt sn fields) sn fields tableNamer rfl
  rw [hmt]
  simp [Except.map, hid, hca, hua]

/-- Claim C6: a single-record `Select` over zero result rows fails with
the explicit no-rows condition, while a bulk `Select` over zero rows
succeeds (leaving the destination's contents as they were). -/
theorem select_single_noRows_bulk_empty_ok (sn : String) (fields : List Field)
    (tn : Option String) (r0 : RecordV) (dest : Dest) (frag : List Char)
    (args : String → Option GoVal) (p : List Char × List GoVal)
    (hrw : replaceNames args frag = .ok p) :
    select (.ptr (.strukt sn fields)) tn (.single r0) frag args [] = .error .noRows ∧
    select (.ptr (.slice (.strukt sn fields))) tn dest frag args [] =
      .ok (.coll (destColl dest)) := by
  constructor
  · obtain ⟨mt, hmt, _, hsp, _, _, _⟩ :=
      newModelType_shapes (.ptr (.strukt sn fields)) sn fields tn (by simp [elemTypeOf])
    simp [select, hmt, hrw, hsp, determineIsStructPointer, rootIsSlice]
  · obtain ⟨mt, hmt, _, _, _, hvs, _⟩ :=
      newModelType_shapes (.ptr (.slice (.strukt sn fields))) sn fields tn
        (by simp [elemTypeOf])
    simp [select, hmt, hrw, hvs, determineIsValidSlice, stripPtr, determineIsStruct,
      elemTypeOf, rootIsSlice, selectLoop]

/-- Witness for C6: concrete single and bulk selects over zero rows. -/
theorem select_single_noRows_bulk_empty_ok_witness :
    select (.ptr (.strukt "KeyValue" [⟨"ID", "", true, "int"⟩])) none
        (.single [GoVal.intVal 0]) [] (fun _ => none) [] = .error .noRows ∧
    select (.ptr (.slice (.strukt "KeyValue" [⟨"ID", "", true, "int"⟩]))) none
        (.coll []) [] (fun _ => none) [] = .ok (.coll (destColl (.coll []))) :=
  select_single_noRows_bulk_empty_ok "KeyValue" [⟨"ID", "", true, "int"⟩] none
    [GoVal.intVal 0] (.coll []) [] (fun _ => none) ([], []) rfl

/-- Claim C3 (amended): a successful bulk `Select` APPENDS each record
materialized from a result row (or its reference, per shape) to the
destination collection, PRESERVING its pre-existing contents: afterwards
the collection holds its prior elements followed by exactly the rows
returned by the query. -/
theorem select_bulk_appends_after_existing (sn : String) (fields : List Field)
    (tn : Option String) (dest0 rows : List RecordV) (frag : List Char)
    (args : String → Option GoVal) (p : List Char × List GoVal)
    (hrw : replaceNames args frag = .ok p) :
    select (.ptr (.slice (.strukt sn fields))) tn (.coll dest0) frag args rows =
      .ok (.coll (dest0 ++ rows)) := by
  obtain ⟨mt, hmt, _, _, _, hvs, _⟩ :=
    newModelType_shapes (.ptr (.slice (.strukt sn fields))) sn fields tn
      (by simp [elemTypeOf])
  simp [select, hmt, hrw, hvs, determineIsValidSlice, stripPtr, determineIsStruct,
    elemTypeOf, rootIsSlice, selectLoop_eq_append, destColl]

/-- Witness for the amended C3 at a concrete pre-filled destination. -/
theorem select_bulk_appends_after_existing_witness :
    select (.ptr (.slice (.strukt "KeyValue" [⟨"ID", "", true, "int"⟩]))) none
        (.coll [[GoVal.intVal 1]]) [] (fun _ => none) [[GoVal.intVal 2]] =
      .ok (.coll ([[GoVal.intVal 1]] ++ [[GoVal.intVal 2]])) :=
  select_bulk_appends_after_existing "KeyValue" [⟨"ID", "", true, "int"⟩] none
    [[GoVal.intVal 1]] [[GoVal.intVal 2]] [] (fun _ => none) ([], []) rfl

/-- Counterexample to claim C3: `Select` into a bulk destination does NOT
replace pre-existing contents.  With one pre-existing record `[1]` and a
query returning the single row `[2]`, the destination afterwards holds
`[[1], [2]]`, not just the returned row `[[2]]`: the source initializes
its append target from the destination's current contents. -/
theorem select_preexisting_contents_not_replaced :
    select (.ptr (.slice (.strukt "KeyValue" [⟨"ID", "", true, "int"⟩]))) none
        (.coll [[.intVal 1]]) [] (fun _ => none) [[.intVal 2]] =
      .ok (.coll [[.intVal 1], [.intVal 2]]) ∧
    ([[GoVal.intVal 1], [GoVal.intVal 2]] : List RecordV) ≠ [[.intVal 2]] :=
  ⟨rfl, by decide⟩

theorem supportedTemporal_cases (tn : String) (h : supportedTemporal tn = true) :
    tn = "time.Time" ∨ tn = "*time.Time" ∨ tn = "sql.NullTime" := by
  have h2 := h
  simp only [supportedTemporal, Bool.or_eq_true, beq_iff_eq] at h2
  tauto

theorem supportedTemporal_kinds (tn : String) (h : supportedTemporal tn = true) :
    goKindIsInt tn = false ∧ goKindIsUint tn = false := by
  rcases supportedTemporal_cases tn h with h1 | h1 | h1 <;> subst h1 <;> exact ⟨rfl, rfl⟩

theorem touchTimestamp_supported (fields : List Field) (value : RecordV) (k : Nat)
    (f : Field) (now : GoTime) (hf : fields[k]? = some f)
    (hs : supportedTemporal f.typeName = true) :
    touchTimestamp fields value (k : Int) now = value.set k (mkTemporalVal f.typeName now) := by
  have hnn : ¬((k : Int) < 0) := by omega
  rcases supportedTemporal_cases f.typeName hs with h1 | h1 | h1 <;>
    simp [touchTimestamp, hnn, Int.toNat_ofNat, hf, mkTemporalVal, h1]

theorem insertIdWriteBack_keeps_supported (mt : ModelType) (v : RecordV)
    (lastId : Int) (k : Nat) (f : Field)
    (hfk : mt.fields[k]? = some f) (hs : supportedTemporal f.typeName = true) :
    (insertIdWriteBack mt v lastId)[k]? = v[k]? := by
  unfold insertIdWriteBack
  by_cases h0 : mt.idFieldIndex < 0
  · simp [h0]
  · simp only [h0, if_false]
    cases hg : mt.fields[mt.idFieldIndex.toNat]? with
    | none => rfl
    | some g =>
      by_cases hik : mt.idFieldIndex.toNat = k
      · subst hik
        rw [hg] at hfk
        injection hfk with hfk
        rw [← hfk] at hs
        have hkinds := supportedTemporal_kinds g.typeName hs
        simp [hkinds.1, hkinds.2]
      · by_cases h1 : goKindIsInt g.typeName = true
        · simp [h1, List.getElem?_set_ne hik]
        · by_cases h2 : goKindIsUint g.typeName = true
          · by_cases h3 : (0 : Int) ≤ lastId
            · simp [h1, h2, h3, List.getElem?_set_ne hik]
            · simp [h1, h2, h3]
          · simp [h1, h2]

theorem temporalInstant_mkTemporalVal (tn : String) (now : GoTime)
    (hs : supportedTemporal tn = true) :
    temporalInstant (mkTemporalVal tn now) = some now.instant := by
  rcases supportedTemporal_cases tn hs with h | h | h <;> subst h <;> rfl

/-- Claim C5: on `Insert`, a creation-timestamp and an update-timestamp
field of supported temporal type are overwritten with the clock's
current time converted to UTC BEFORE the column values are extracted;
afterwards both in-memory fields carry the clock's instant (hence equal
each other), and the value sent to the database for those columns equals
the in-memory field value after the call. -/
theorem insert_timestamp_consistency
    (sn : String) (fields : List Field) (tn : Option String) (mt : ModelType)
    (value : RecordV) (now0 : GoTime) (lastId : Int) (i j : Nat) (fc fu : Field)
    (hmt : newModelType (.ptr (.strukt sn fields)) tn = .ok mt)
    (hlen : value.length = fields.length)
    (hci : mt.createdAtFieldIndex = (i : Int))
    (hui : mt.updatedAtFieldIndex = (j : Int))
    (hfc : fields[i]? = some fc)
    (hfu : fields[j]? = some fu)
    (hni : fieldIndexByName fields fc.name = some i)
    (hnj : fieldIndexByName fields fu.name = some j)
    (hsc : supportedTemporal fc.typeName = true)
    (hsu : supportedTemporal fu.typeName = true) :
    ∃ r, insert mt value now0 lastId = .ok r ∧
      r.record[i]? = some (mkTemporalVal fc.typeName now0.utc) ∧
      r.record[j]? = some (mkTemporalVal fu.typeName now0.utc) ∧
      temporalInstant (r.record.getD i .nilVal) = some now0.instant ∧
      temporalInstant (r.record.getD j .nilVal) = some now0.instant ∧
      temporalInstant (r.record.getD i .nilVal) = temporalInstant (r.record.getD j .nilVal) ∧
      (∀ (k : Nat) (col : Field), mt.columns[k]? = some col →
        (col.name = fc.name ∨ col.name = fu.name) →
        r.sentValues[k]? = some (fieldByName fields r.record col.name)) := by
  obtain ⟨mt', hmt', hfe, hsp, _, _, _, _, _, _⟩ :=
    newModelType_shapes (.ptr (.strukt sn fields)) sn fields tn (by simp [elemTypeOf])
  rw [hmt] at hmt'
  injection hmt' with hmm
  subst hmm
  have hsp2 : mt.isStructPointer = true := by rw [hsp]; rfl
  obtain ⟨hiF, -⟩ := List.getElem?_eq_some_iff.mp hfc
  obtain ⟨hjF, -⟩ := List.getElem?_eq_some_iff.mp hfu
  have hiV : i < value.length := hlen ▸ hiF
  have hjV : j < (value.set i (mkTemporalVal fc.typeName now0.utc)).length := by
    simpa using hlen ▸ hjF
  have hv1 : touchTimestamp mt.fields value mt.createdAtFieldIndex now0.utc
      = value.set i (mkTemporalVal fc.typeName now0.utc) := by
    rw [hfe, hci]
    exact touchTimestamp_supported fields value i fc now0.utc hfc hsc
  have hv2 : touchTimestamp mt.fields (value.set i (mkTemporalVal fc.typeName now0.utc))
        mt.updatedAtFieldIndex now0.utc
      = (value.set i (mkTemporalVal fc.typeName now0.utc)).set j
          (mkTemporalVal fu.typeName now0.utc) := by
    rw [hfe, hui]
    exact touchTimestamp_supported fields _ j fu now0.utc hfu hsu
  have hins : insert mt value now0 lastId =
      .ok { record := insertIdWriteBack mt
              ((value.set i (mkTemporalVal fc.typeName now0.utc)).set j
                (mkTemporalVal fu.typeName now0.utc)) lastId
            sql := insertSqlText mt
            sentValues := insertColumnData mt
              ((value.set i (mkTemporalVal fc.typeName now0.utc)).set j
                (mkTemporalVal fu.typeName now0.utc)) } := by
    simp [insert, hsp2, hv1, hv2]
  have hV2i : ((value.set i (mkTemporalVal fc.typeName now0.utc)).set j
      (mkTemporalVal fu.typeName now0.utc))[i]? =
      some (mkTemporalVal fc.typeName now0.utc) := by
    by_cases hij : j = i
    · subst hij
      have hcu : fc = fu := by
        rw [hfc] at hfu
        exact Option.some.inj hfu
      rw [List.getElem?_set_self hjV, hcu]
    · rw [List.getElem?_set_ne hij, List.getElem?_set_self hiV]
  have hV2j : ((value.set i (mkTemporalVal fc.typeName now0.utc)).set j
      (mkTemporalVal fu.typeName now0.utc))[j]? =
      some (mkTemporalVal fu.typeName now0.utc) :=
    List.getElem?_set_self hjV
  have hri : (insertIdWriteBack mt
      ((value.set i (mkTemporalVal fc.typeName now0.utc)).set j
        (mkTemporalVal fu.typeName now0.utc)) lastId)[i]? =
      some (mkTemporalVal fc.typeName now0.utc) :=
    (insertIdWriteBack_keeps_supported mt _ lastId i fc (by rw [hfe]; exact hfc) hsc).trans hV2i
  have hrj : (insertIdWriteBack mt
      ((value.set i (mkTemporalVal fc.typeName now0.utc)).set j
        (mkTemporalVal fu.typeName now0.utc)) lastId)[j]? =
      some (mkTemporalVal fu.typeName now0.utc) :=
    (insertIdWriteBack_keeps_supported mt _ lastId j fu (by rw [hfe]; exact hfu) hsu).trans hV2j
  refine ⟨_, hins, hri, hrj, ?_, ?_, ?_, ?_⟩
  · rw [List.getD_eq_getElem?_getD, hri]
    exact temporalInstant_mkTemporalVal fc.typeName now0.utc hsc
  · rw [List.getD_eq_getElem?_getD, hrj]
    exact temporalInstant_mkTemporalVal fu.typeName now0.utc hsu
  · rw [List.getD_eq_getElem?_getD, hri, List.getD_eq_getElem?_getD, hrj,
        Option.getD_some, Option.getD_some,
        temporalInstant_mkTemporalVal fc.typeName now0.utc hsc,
        temporalInstant_mkTemporalVal fu.typeName now0.utc hsu]
  · intro k col hcol hname
    have hmap : (insertColumnData mt
        ((value.set i (mkTemporalVal fc.typeName now0.utc)).set j
          (mkTemporalVal fu.typeName now0.utc)))[k]? =
        some (fieldByName mt.fields
          ((value.set i (mkTemporalVal fc.typeName now0.utc)).set j
            (mkTemporalVal fu.typeName now0.utc)) col.name) := by
      rw [insertColumnData, List.getElem?_map, hcol]
      rfl
    rw [hmap, hfe]
    rcases hname with h | h
    · rw [h]
      simp only [fieldByName, hni]
      rw [List.getD_eq_getElem?_getD, List.getD_eq_getElem?_getD, hV2i, hri]
    · rw [h]
      simp only [fieldByName, hnj]
      rw [List.getD_eq_getElem?_getD, List.getD_eq_getElem?_getD, hV2j, hrj]

/-- Witness for C5 at a concrete record type with `CreatedAt` and
`UpdatedAt` fields of type `time.Time`. -/
theorem insert_timestamp_consistency_witness :
    ∃ mt, newModelType (.ptr (.strukt "Kv"
        [⟨"ID", "", true, "int"⟩, ⟨"CreatedAt", "", true, "time.Time"⟩,
         ⟨"UpdatedAt", "", true, "time.Time"⟩])) none = .ok mt ∧
      ∃ r, insert mt [.intVal 0, .nilVal, .nilVal] ⟨100, "Local"⟩ 7 = .ok r ∧
        r.record[1]? = some (mkTemporalVal "time.Time" (GoTime.utc ⟨100, "Local"⟩)) ∧
        r.record[2]? = some (mkTemporalVal "time.Time" (GoTime.utc ⟨100, "Local"⟩)) ∧
        temporalInstant (r.record.getD 1 .nilVal) = some 100 ∧
        temporalInstant (r.record.getD 2 .nilVal) = some 100 ∧
        temporalInstant (r.record.getD 1 .nilVal) = temporalInstant (r.record.getD 2 .nilVal) ∧
        (∀ (k : Nat) (col : Field), mt.columns[k]? = some col →
          (col.name = "CreatedAt" ∨ col.name = "UpdatedAt") →
          r.sentValues[k]? = some (fieldByName
            [⟨"ID", "", true, "int"⟩, ⟨"CreatedAt", "", true, "time.Time"⟩,
             ⟨"UpdatedAt", "", true, "time.Time"⟩] r.record col.name)) :=
  ⟨_, rfl, insert_timestamp_consistency "Kv"
    [⟨"ID", "", true, "int"⟩, ⟨"CreatedAt", "", true, "time.Time"⟩,
     ⟨"UpdatedAt", "", true, "time.Time"⟩] none _
    [.intVal 0, .nilVal, .nilVal] ⟨100, "Local"⟩ 7 1 2
    ⟨"CreatedAt", "", true, "time.Time"⟩ ⟨"UpdatedAt", "", true, "time.Time"⟩
    rfl rfl rfl rfl rfl rfl rfl rfl rfl rfl⟩

theorem filterMap_pairs_snd (us : UpdatesM) (cols : List Field) :
    (cols.filterMap (fun col =>
        match lookupUpd us col.name with
        | some v => some (columnNameOf col, v)
        | none => none)).map (fun p => p.2) =
      cols.filterMap (fun col => lookupUpd us col.name) := by
  induction cols with
  | nil => rfl
  | cons c cs ih =>
    cases h : lookupUpd us c.name <;> simp [List.filterMap_cons, h, ih]

theorem findColumnsStep_columns (m : ModelType) (i : Nat) (f : Field) :
    (findColumnsStep m i f).columns = m.columns ∨
    (findColumnsStep m i f).columns = m.columns ++ [f] := by
  unfold findColumnsStep
  repeat' split
  all_goals simp

theorem findColumns_columns_sublist (fs : List Field) : ∀ (m : ModelType) (i : Nat),
    List.Sublist (findColumns m i fs).columns (m.columns ++ fs) := by
  induction fs with
  | nil =>
    intro m i
    simp [findColumns]
  | cons f fs ih =>
    intro m i
    simp only [findColumns]
    have h1 := ih (findColumnsStep m i f) (i + 1)
    rcases findColumnsStep_columns m i f with hc | hc
    · rw [hc] at h1
      exact h1.trans (List.Sublist.append_left (List.sublist_cons_self f fs) m.columns)
    · rw [hc, List.append_assoc, List.singleton_append] at h1
      exact h1

theorem lastMatchFrom_eligible (p : Field → Bool) (fs : List Field) : ∀ (i j : Nat),
    lastMatchFrom p i fs = some j →
      ∃ f, fs[j - i]? = some f ∧ roleEligible f = true ∧ p f = true ∧ i ≤ j := by
  induction fs with
  | nil => intro i j h; cases h
  | cons f fs ih =>
    intro i j h
    simp only [lastMatchFrom] at h
    cases hh : lastMatchFrom p (i + 1) fs with
    | some j2 =>
      rw [hh] at h
      injection h with h
      subst h
      obtain ⟨g, hg, he, hp, hij⟩ := ih (i + 1) j2 hh
      refine ⟨g, ?_, he, hp, by omega⟩
      have hdiff : j2 - i = (j2 - (i + 1)) + 1 := by omega
      rw [hdiff, List.getElem?_cons_succ]
      exact hg
    | none =>
      rw [hh] at h
      by_cases hc : (roleEligible f && p f) = true
      · rw [if_pos hc] at h
        injection h with h
        subst h
        have hc2 : roleEligible f = true ∧ p f = true := by simpa using hc
        exact ⟨f, by simp, hc2.1, hc2.2, Nat.le_refl i⟩
      · rw [if_neg hc] at h
        cases h

theorem mem_setUpd_of_ne (us : UpdatesM) (k : String) (v : GoVal) (k2 : String)
    (v2 : GoVal) (h : (k2, v2) ∈ us) (hne : k2 ≠ k) : (k2, v2) ∈ setUpd us k v := by
  unfold setUpd
  split
  · refine List.mem_map.mpr ⟨(k2, v2), h, ?_⟩
    simp [hne]
  · exact List.mem_append_left _ h

theorem injectUpdatedAt_preserves_mem
    (mt : ModelType) (us us1 : UpdatesM) (now : GoTime) (k : String) (v : GoVal)
    (fields : List Field)
    (hfe : mt.fields = fields)
    (hua : mt.updatedAtFieldIndex = roleIndexOf isUpdatedAtMatch fields)
    (hinj : injectUpdatedAt mt us now = .ok us1)
    (hk : (k, v) ∈ us)
    (hbad : namesExportedField fields k = false) :
    (k, v) ∈ us1 := by
  unfold injectUpdatedAt at hinj
  by_cases h0 : mt.updatedAtFieldIndex < 0
  · rw [if_pos h0] at hinj
    injection hinj with h
    rw [← h]
    exact hk
  · rw [if_neg h0] at hinj
    cases hg : mt.fields[mt.updatedAtFieldIndex.toNat]? with
    | none =>
      rw [hg] at hinj
      injection hinj with h
      rw [← h]
      exact hk
    | some f =>
      rw [hg] at hinj
      replace hinj : (if (f.typeName == "time.Time") = true then
          Except.ok (setUpd us f.name (GoVal.timeVal now))
        else if (f.typeName == "*time.Time") = true then
          Except.ok (setUpd us f.name (GoVal.timePtr now))
        else if (f.typeName == "sql.NullTime") = true then
          Except.ok (setUpd us f.name (GoVal.nullTime now true))
        else Except.error ("unsupported UpdatedAt field type: " ++ f.typeName)) =
          Except.ok us1 := hinj
      have hfex : f.exported = true ∧ f ∈ fields := by
        rw [roleIndexOf] at hua
        cases hl : lastMatchFrom isUpdatedAtMatch 0 fields with
        | none =>
          rw [hl] at hua
          rw [hua] at h0
          exact absurd (by decide) h0
        | some j =>
          rw [hl] at hua
          obtain ⟨g, hgj, he, _, _⟩ := lastMatchFrom_eligible isUpdatedAtMatch fields 0 j hl
          rw [hua, hfe] at hg
          rw [Nat.sub_zero] at hgj
          rw [Int.toNat_ofNat] at hg
          rw [hgj] at hg
          injection hg with hg
          rw [hg] at he hgj
          have he2 : f.exported = true ∧ !(f.dbTag == "-") = true := by
            simpa [roleEligible] using he
          exact ⟨he2.1, List.getElem?_mem hgj⟩
      have hkne : k ≠ f.name := by
        intro heq
        have hex : namesExportedField fields k = true := by
          rw [namesExportedField]
          refine List.any_eq_true.mpr ⟨f, hfex.2, ?_⟩
          rw [Bool.and_eq_true]
          exact ⟨by rw [heq]; exact beq_self_eq_true f.name, hfex.1⟩
        rw [hex] at hbad
        cases hbad
      by_cases h1 : (f.typeName == "time.Time") = true
      · rw [if_pos h1] at hinj
        injection hinj with h
        rw [← h]
        exact mem_setUpd_of_ne us f.name (.timeVal now) k v hk hkne
      · rw [if_neg h1] at hinj
        by_cases h2 : (f.typeName == "*time.Time") = true
        · rw [if_pos h2] at hinj
          injection hinj with h
          rw [← h]
          exact mem_setUpd_of_ne us f.name (.timePtr now) k v hk hkne
        · rw [if_neg h2] at hinj
          by_cases h3 : (f.typeName == "sql.NullTime") = true
          · rw [if_pos h3] at hinj
            injection hinj with h
            rw [← h]
            exact mem_setUpd_of_ne us f.name (.nullTime now true) k v hk hkne
          · rw [if_neg h3] at hinj
            cases hinj

theorem updateRecordSetLoop_ok_all_exported (fields : List Field) :
    ∀ (us : UpdatesM) (pairs : List (String × GoVal)),
      updateRecordSetLoop fields us = .ok pairs →
      ∀ (k : String) (v : GoVal), (k, v) ∈ us → namesExportedField fields k = true := by
  intro us
  induction us with
  | nil =>
    intro pairs h k v hm
    cases hm
  | cons p rest ih =>
    intro pairs h k v hm
    obtain ⟨k0, v0⟩ := p
    simp only [updateRecordSetLoop] at h
    cases hf : fields.find? (fun f => f.name == k0) with
    | none =>
      rw [hf] at h
      cases h
    | some f =>
      rw [hf] at h
      replace h : (if (!f.exported) = true then
          Except.error ("cannot update missing or unexported field: " ++ k0)
        else
          match updateRecordSetLoop fields rest with
          | Except.error e => Except.error e
          | Except.ok tail => Except.ok ((columnNameOf f, v0) :: tail)) =
            Except.ok pairs := h
      by_cases he : (!f.exported) = true
      · rw [if_pos he] at h
        cases h
      · rw [if_neg he] at h
        cases htail : updateRecordSetLoop fields rest with
        | error e =>
          rw [htail] at h
          cases h
        | ok tailPairs =>
          rcases List.mem_cons.mp hm with hm1 | hm2
          · injection hm1 with hk1 hv1
            subst hk1
            have hexp : f.exported = true := by
              revert he
              cases f.exported <;> simp
            rw [namesExportedField]
            refine List.any_eq_true.mpr ⟨f, List.mem_of_find?_eq_some hf, ?_⟩
            rw [Bool.and_eq_true]
            have hname : (f.name == k) = true := by
              have h2 := List.find?_some hf
              simpa using h2
            exact ⟨hname, hexp⟩
          · exact ih tailPairs htail k v hm2

/-- Claim C10: an `UpdateRecord` call whose update map contains a key
that does not name an exported field of the record's type fails before
any SQL statement is executed (the statement log is unchanged), leaving
the database and the in-memory record untouched — whatever position the
key occupies in the map's iteration order; in contrast, bulk `Update`
with the same map succeeds, silently ignoring such keys. -/
theorem updateRecord_rejects_unknown_field
    (sn : String) (fields : List Field) (tn : Option String) (mt : ModelType)
    (value : RecordV) (us : UpdatesM) (now0 : GoTime) (dbLog : List Stmt)
    (k : String) (v : GoVal) (frag : List Char) (args : String → Option GoVal)
    (n : Int)
    (hmt : newModelType (.ptr (.strukt sn fields)) tn = .ok mt)
    (hk : (k, v) ∈ us)
    (hbad : namesExportedField fields k = false) :
    (∃ e, updateRecord mt value us now0 dbLog = (dbLog, .error e)) ∧
    (∀ (us1 : UpdatesM) (f1 : List Char) (ws : List GoVal),
      injectUpdatedAt mt us now0.utc = .ok us1 →
      replaceNames args frag = .ok (f1, ws) →
      ∃ r, update mt frag args us now0 n = .ok r) := by
  obtain ⟨mt', hmt', hfe, hsp, _, _, _, _, _, hua⟩ :=
    newModelType_shapes (.ptr (.strukt sn fields)) sn fields tn (by simp [elemTypeOf])
  rw [hmt] at hmt'
  injection hmt' with hmm
  subst hmm
  have hsp2 : mt.isStructPointer = true := by rw [hsp]; rfl
  have hlen0 : (us.length == 0) = false := by
    cases us with
    | nil => exact absurd hk (List.not_mem_nil _)
    | cons a l => rfl
  constructor
  · by_cases hid : mt.idFieldIndex < 0
    · exact ⟨"struct does not have an ID field",
        by simp [updateRecord, hsp2, hlen0, hid]⟩
    · cases hinj : injectUpdatedAt mt us now0.utc with
      | error e =>
        exact ⟨e, by simp [updateRecord, hsp2, hlen0, hid, hinj]⟩
      | ok us1 =>
        have hmem : (k, v) ∈ us1 :=
          injectUpdatedAt_preserves_mem mt us us1 now0.utc k v fields hfe hua hinj hk hbad
        cases hloop : updateRecordSetLoop mt.fields us1 with
        | error e =>
          exact ⟨e, by simp [updateRecord, hsp2, hlen0, hid, hinj, hloop]⟩
        | ok pairs =>
          exfalso
          rw [hfe] at hloop
          have hall := updateRecordSetLoop_ok_all_exported fields us1 pairs hloop k v hmem
          rw [hall] at hbad
          cases hbad
  · intro us1 f1 ws hinj hrw
    cases hu : update mt frag args us now0 n with
    | ok r => exact ⟨r, rfl⟩
    | error e =>
      exfalso
      simp [update, hsp2, hlen0, hinj, hrw] at hu

/-- Witness for C10: a one-field record type and the unknown key `Nope`. -/
theorem updateRecord_rejects_unknown_field_witness :
    ∃ mt, newModelType (.ptr (.strukt "Kv" [⟨"ID", "", true, "int"⟩])) none = .ok mt ∧
      ((∃ e, updateRecord mt [GoVal.intVal 5] [("Nope", GoVal.intVal 9)] ⟨0, "L"⟩ [] =
          ([], .error e)) ∧
       (∀ (us1 : UpdatesM) (f1 : List Char) (ws : List GoVal),
        injectUpdatedAt mt [("Nope", GoVal.intVal 9)] (GoTime.utc ⟨0, "L"⟩) = .ok us1 →
        replaceNames (fun _ => (none : Option GoVal)) [] = .ok (f1, ws) →
        ∃ r, update mt [] (fun _ => none) [("Nope", GoVal.intVal 9)] ⟨0, "L"⟩ 0 = .ok r)) :=
  ⟨_, rfl, updateRecord_rejects_unknown_field "Kv" [⟨"ID", "", true, "int"⟩] none _
    [GoVal.intVal 5] [("Nope", GoVal.intVal 9)] ⟨0, "L"⟩ [] "Nope" (GoVal.intVal 9)
    [] (fun _ => none) 0 rfl (by simp) rfl⟩

theorem newModelType_columns_sublist (t : GoType) (sn : String) (fields : List Field)
    (tn : Option String) (mt : ModelType) (he : elemTypeOf t = .strukt sn fields)
    (hmt : newModelType t tn = .ok mt) :
    List.Sublist mt.columns fields := by
  unfold newModelType at hmt
  rw [he] at hmt
  injection hmt with h
  rw [← h]
  exact findColumns_columns_sublist fields _ 0

/-- Claim C8: a successful bulk `Update` passes to the executed statement
the SET values — the (possibly timestamp-injected) update-map values of
the resolved columns, in column-resolution order, which is field
declaration order (`mt.columns` is a sublist of the declared fields) —
followed by the WHERE-clause values produced by the rewrite in
left-to-right text-scan order. -/
theorem update_set_values_before_where_values
    (sn : String) (fields : List Field) (tn : Option String) (mt : ModelType)
    (frag : List Char) (args : String → Option GoVal) (us us1 : UpdatesM)
    (now0 : GoTime) (n : Int) (f1 : List Char) (ws : List GoVal)
    (hmt : newModelType (.ptr (.strukt sn fields)) tn = .ok mt)
    (hne : us ≠ [])
    (hinj : injectUpdatedAt mt us now0.utc = .ok us1)
    (hrw : replaceNames args frag = .ok (f1, ws)) :
    ∃ r, update mt frag args us now0 n = .ok r ∧
      r.args = mt.columns.filterMap (fun col => lookupUpd us1 col.name) ++ ws ∧
      List.Sublist mt.columns fields := by
  obtain ⟨mt', hmt', _, hsp, _, _, _, _, _, _⟩ :=
    newModelType_shapes (.ptr (.strukt sn fields)) sn fields tn (by simp [elemTypeOf])
  rw [hmt] at hmt'
  injection hmt' with hmm
  subst hmm
  have hsp2 : mt.isStructPointer = true := by rw [hsp]; rfl
  have hcs : List.Sublist mt.columns fields :=
    newModelType_columns_sublist (.ptr (.strukt sn fields)) sn fields tn mt
      (by simp [elemTypeOf]) hmt
  have hlen0 : (us.length == 0) = false := by
    cases us with
    | nil => exact absurd rfl hne
    | cons a l => rfl
  cases hu : update mt frag args us now0 n with
  | error e =>
    exfalso
    simp [update, hsp2, hlen0, hinj, hrw] at hu
  | ok r =>
    have hval : r.args = (mt.columns.filterMap (fun col =>
        match lookupUpd us1 col.name with
        | some v => some (columnNameOf col, v)
        | none => none)).map (fun p => p.2) ++ ws := by
      simp only [update, hsp2, Bool.not_true, Bool.false_and, Bool.false_eq_true, if_false,
        hlen0, hinj, hrw, Except.ok.injEq] at hu
      rw [← hu]
    refine ⟨r, rfl, ?_, hcs⟩
    rw [hval, filterMap_pairs_snd]

/-- Witness for C8 at a two-field record type and one SET key. -/
theorem update_set_values_before_where_values_witness :
    ∃ mt, newModelType (.ptr (.strukt "Kv"
        [⟨"ID", "", true, "int"⟩, ⟨"Key", "", true, "string"⟩])) none = .ok mt ∧
      ∃ r, update mt "WHERE id = $id".data
          (fun s => if s = "id" then some (GoVal.intVal 3) else none)
          [("Key", GoVal.strVal "k")] ⟨0, "L"⟩ 1 = .ok r ∧
        r.args = mt.columns.filterMap
            (fun col => lookupUpd [("Key", GoVal.strVal "k")] col.name) ++ [GoVal.intVal 3] ∧
        List.Sublist mt.columns [⟨"ID", "", true, "int"⟩, ⟨"Key", "", true, "string"⟩] :=
  ⟨_, rfl, update_set_values_before_where_values "Kv"
    [⟨"ID", "", true, "int"⟩, ⟨"Key", "", true, "string"⟩] none _
    "WHERE id = $id".data (fun s => if s = "id" then some (GoVal.intVal 3) else none)
    [("Key", GoVal.strVal "k")] [("Key", GoVal.strVal "k")] ⟨0, "L"⟩ 1
    "WHERE id = ?".data [GoVal.intVal 3] rfl (by simp) rfl rfl⟩

theorem deleteRecord_ok_subset (t : GoType) (tableNamer : Option String)
    (value : RecordV) (table table1 : List GoVal) (n1 : Int)
    (h : deleteRecord t tableNamer value table = .ok (table1, n1)) :
    ∀ x, x ∈ table1 → x ∈ table := by
  unfold deleteRecord at h
  cases hm : newModelType t tableNamer with
  | error e =>
    rw [hm] at h
    cases h
  | ok mt =>
    rw [hm] at h
    replace h : (if (!mt.isStructPointer) = true then
        (Except.error "destination must be a pointer to a struct" :
          Except String (List GoVal × Int))
      else if mt.idFieldIndex < 0 then
        Except.error "struct does not have an ID field"
      else
        Except.ok (execDeleteById table (value.getD mt.idFieldIndex.toNat GoVal.nilVal))) =
        Except.ok (table1, n1) := h
    by_cases hp : (!mt.isStructPointer) = true
    · rw [if_pos hp] at h
      cases h
    · rw [if_neg hp] at h
      by_cases hid : mt.idFieldIndex < 0
      · rw [if_pos hid] at h
        cases h
      · rw [if_neg hid] at h
        injection h with h
        simp only [execDeleteById, Prod.mk.injEq] at h
        obtain ⟨h1, -⟩ := h
        intro x hx
        rw [← h1] at hx
        exact (List.mem_filter.mp hx).1

theorem deleteRecordsLoop_table_subset (elemPtr : GoType) (tableNamer : Option String) :
    ∀ (recs : List RecordV) (table table1 : List GoVal) (n n1 : Int),
      deleteRecordsLoop elemPtr tableNamer recs table n = .ok (table1, n1) →
      ∀ x, x ∈ table1 → x ∈ table := by
  intro recs
  induction recs with
  | nil =>
    intro table table1 n n1 h x hx
    simp only [deleteRecordsLoop, Except.ok.injEq, Prod.mk.injEq] at h
    rw [← h.1] at hx
    exact hx
  | cons rec recs ih =>
    intro table table1 n n1 h x hx
    simp only [deleteRecordsLoop] at h
    cases hd : deleteRecord elemPtr tableNamer rec table with
    | error e =>
      rw [hd] at h
      cases h
    | ok p =>
      obtain ⟨t2, nn⟩ := p
      rw [hd] at h
      replace h : deleteRecordsLoop elemPtr tableNamer recs t2 (n + nn) = .ok (table1, n1) := h
      exact deleteRecord_ok_subset elemPtr tableNamer rec table t2 nn hd x
        (ih t2 table1 (n + nn) n1 h x hx)

theorem deleteRecordsLoop_deletes_all (sn : String) (fields : List Field)
    (tn : Option String) (i : Nat)
    (hid : roleIndexOf isIdMatch fields = (i : Int)) :
    ∀ (recs : List RecordV) (table : List GoVal) (n : Int),
      ∃ table1 n1,
        deleteRecordsLoop (.ptr (.strukt sn fields)) tn recs table n = .ok (table1, n1) ∧
        ∀ rec ∈ recs, (rec.getD i GoVal.nilVal) ∉ table1 := by
  intro recs
  induction recs with
  | nil =>
    intro table n
    exact ⟨table, n, rfl, by simp⟩
  | cons rec recs ih =>
    intro table n
    obtain ⟨mt2, hmt2, _, hsp, _, _, _, hid2, _, _⟩ :=
      newModelType_shapes (.ptr (.strukt sn fields)) sn fields tn (by simp [elemTypeOf])
    have hsp3 : mt2.isStructPointer = true := by rw [hsp]; rfl
    have hid3 : mt2.idFieldIndex = (i : Int) := by rw [hid2, hid]
    have hnneg : ¬(mt2.idFieldIndex < 0) := by rw [hid3]; omega
    have htn : mt2.idFieldIndex.toNat = i := by rw [hid3]; simp
    have hdel : deleteRecord (.ptr (.strukt sn fields)) tn rec table =
        .ok (table.filter (fun x => x != rec.getD i GoVal.nilVal),
          ((table.length : Int) -
            ((table.filter (fun x => x != rec.getD i GoVal.nilVal)).length : Int))) := by
      simp only [deleteRecord, hmt2, hsp3, Bool.not_true, Bool.false_eq_true, if_false,
        hnneg, execDeleteById, htn]
    obtain ⟨table1, n1, hloop, hall⟩ :=
      ih (table.filter (fun x => x != rec.getD i GoVal.nilVal))
        (n + ((table.length : Int) -
          ((table.filter (fun x => x != rec.getD i GoVal.nilVal)).length : Int)))
    refine ⟨table1, n1, ?_, ?_⟩
    · simp only [deleteRecordsLoop, hdel]
      exact hloop
    · intro r hr
      rcases List.mem_cons.mp hr with h | h
      · subst h
        intro hmem
        have hfil := deleteRecordsLoop_table_subset (.ptr (.strukt sn fields)) tn
          _ _ table1 _ n1 hloop _ hmem
        have hne := (List.mem_filter.mp hfil).2
        simp at hne
      · exact hall r h

/-- Claim C7: `DeleteRecords` runs its per-element identity deletes
inside a single transaction.  If the element type lacks a resolvable
identity field, a non-empty call fails and the transaction rolls back,
so the caller sees the table exactly as before (no deletion retained);
if the identity field resolves, the call succeeds and afterwards no
element of the collection remains in the table. -/
theorem deleteRecords_rollback_or_delete_all
    (sn : String) (fields : List Field) (tn : Option String) (mt : ModelType)
    (recs : List RecordV) (table : List GoVal)
    (hmt : newModelType (.ptr (.slice (.strukt sn fields))) tn = .ok mt) :
    (mt.idFieldIndex < 0 → recs ≠ [] →
      ∃ e, deleteRecords (.ptr (.slice (.strukt sn fields))) tn recs table false =
        (table, .error e)) ∧
    (∀ i : Nat, mt.idFieldIndex = (i : Int) →
      ∃ table1 n1,
        deleteRecords (.ptr (.slice (.strukt sn fields))) tn recs table false =
          (table1, .ok n1) ∧
        ∀ rec ∈ recs, (rec.getD i GoVal.nilVal) ∉ table1) := by
  obtain ⟨mt', hmt', _, _, _, hvs, _, hid, _, _⟩ :=
    newModelType_shapes (.ptr (.slice (.strukt sn fields))) sn fields tn
      (by simp [elemTypeOf])
  rw [hmt] at hmt'
  injection hmt' with hmm
  subst hmm
  have hvs2 : mt.isValidSlice = true := by
    rw [hvs]
    simp [determineIsValidSlice, stripPtr, determineIsStruct, elemTypeOf]
  constructor
  · intro hneg hrne
    cases recs with
    | nil => exact absurd rfl hrne
    | cons rec rest =>
      obtain ⟨mt2, hmt2, _, hsp, _, _, _, hid2, _, _⟩ :=
        newModelType_shapes (.ptr (.strukt sn fields)) sn fields tn (by simp [elemTypeOf])
      have hsp3 : mt2.isStructPointer = true := by rw [hsp]; rfl
      have hneg2 : mt2.idFieldIndex < 0 := by
        rw [hid2, ← hid]
        exact hneg
      have hdel : deleteRecord (.ptr (.strukt sn fields)) tn rec table =
          .error "struct does not have an ID field" := by
        simp [deleteRecord, hmt2, hsp3, hneg2]
      refine ⟨"struct does not have an ID field", ?_⟩
      simp only [deleteRecords, hmt, hvs2, Bool.not_true, Bool.false_eq_true, if_false,
        transaction, elemTypeOf, deleteRecordsLoop, hdel]
  · intro i hi
    have hid3 : roleIndexOf isIdMatch fields = (i : Int) := by rw [← hid, hi]
    obtain ⟨table1, n1, hloop, hall⟩ :=
      deleteRecordsLoop_deletes_all sn fields tn i hid3 recs table 0
    refine ⟨table1, n1, ?_, hall⟩
    simp only [deleteRecords, hmt, hvs2, Bool.not_true, Bool.false_eq_true, if_false,
      transaction, elemTypeOf, hloop]

/-- Witness for C7: a rollback on a type without identity and a full
deletion on a type with identity. -/
theorem deleteRecords_rollback_or_delete_all_witness :
    (∃ mtA, newModelType (.ptr (.slice (.strukt "T" [⟨"Name", "", true, "string"⟩]))) none =
        .ok mtA ∧
      ∃ e, deleteRecords (.ptr (.slice (.strukt "T" [⟨"Name", "", true, "string"⟩]))) none
          [[GoVal.strVal "a"]] [GoVal.intVal 1, GoVal.intVal 2] false =
        ([GoVal.intVal 1, GoVal.intVal 2], .error e)) ∧
    (∃ mtB, newModelType (.ptr (.slice (.strukt "T" [⟨"ID", "", true, "int"⟩]))) none =
        .ok mtB ∧
      ∃ table1 n1,
        deleteRecords (.ptr (.slice (.strukt "T" [⟨"ID", "", true, "int"⟩]))) none
            [[GoVal.intVal 1], [GoVal.intVal 3]]
            [GoVal.intVal 1, GoVal.intVal 2, GoVal.intVal 3] false =
          (table1, .ok n1) ∧
        ∀ rec ∈ [[GoVal.intVal 1], [GoVal.intVal 3]],
          (rec.getD 0 GoVal.nilVal) ∉ table1) :=
  ⟨⟨_, rfl, (deleteRecords_rollback_or_delete_all "T" [⟨"Name", "", true, "string"⟩] none _
      [[GoVal.strVal "a"]] [GoVal.intVal 1, GoVal.intVal 2] rfl).1 (by decide) (by decide)⟩,
   ⟨_, rfl, (deleteRecords_rollback_or_delete_all "T" [⟨"ID", "", true, "int"⟩] none _
      [[GoVal.intVal 1], [GoVal.intVal 3]]
      [GoVal.intVal 1, GoVal.intVal 2, GoVal.intVal 3] rfl).2 0 rfl⟩⟩

end Microrm
